import Mathlib

set_option maxRecDepth 8000

/-!  Verification of the AIX contract-analysis application.

This file gives a shallow embedding, in Lean 4, of the logic of the two
source files of the repository (src/app.py and src/streamlit_demo.py),
together with two components (the Text Chunker of spec §4.1 and the
Aggregator of spec §4.4) that the specification describes but that do not
appear under src/; those two are modelled from the spec's words and are
marked as such in their doc comments.

External collaborators (the OpenAI chat endpoint, the Hugging Face
inference endpoint, the Azure translator, the PDF/DOCX extraction
libraries) are passed in as function parameters; the embedding captures
exactly the requests the source constructs and what the source does with
the collaborator's answer.  Strings are Lean Strings; byte streams and
Unicode code points are lists of Nat.
-/

/-- Boolean test that the character list `p` occurs at the start of `s`. -/
def isPrefList : List Char → List Char → Bool
  | [], _ => true
  | _ :: _, [] => false
  | a :: as, b :: bs => a == b && isPrefList as bs

/-- Boolean test that the character list `p` occurs contiguously somewhere
inside `s`. -/
def hasSub (p : List Char) : List Char → Bool
  | [] => isPrefList p []
  | b :: bs => isPrefList p (b :: bs) || hasSub p bs

/-- Boolean test that the string `s` ends with the string `suf`
(the embedding of Python's str.endswith). -/
def strEndsWith (s suf : String) : Bool :=
  isPrefList suf.data.reverse s.data.reverse

/-- Opening sentence shared by every prompt template in src/app.py. -/
def promptIntro : String :=
  "Based on the following text that is taken from a contract document"

/-- Jurisdiction connective of the country branch of the prompt templates. -/
def promptLaws : String := ", and based on the laws of "

/-- Tail of the five-point template of query_huggingface
(src/app.py lines 339-365); continuation lines carry the 8-space
indentation of the Python triple-quoted f-string. -/
def hfTail : String :=
  ",\n        I want you to analyze it and produce the following:\n        1 - Extracted contract information (eg. contracting parties, effective dates, governing laws, financial terms, etc),\n        2 - Give me details on the missing information from the document if there is any,\n        3 - Analysis of potential risks, such as non-standard clauses,\n        4 - Give me legal advice on what to change in the document, opinions, or law comparisons,\n        5 - Summarized overview of extracted information, missing items, and potential risks.\n        Text from legal document: "

/-- Tail of the five-point template of the second copy of query_huggingface
(src/app.py lines 427-453); it differs from `hfTail` by the source's
spellings "potenial" and "infromation". -/
def hfTail2 : String :=
  ",\n        I want you to analyze it and produce the following:\n        1 - Extracted contract information (eg. contracting parties, effective dates, governing laws, financial terms, etc),\n        2 - Give me details on the missing information from the document if there is any,\n        3 - Analysis of potenial risks, such as non-standard clauses,\n        4 - Give me legal advice on what to change in the document, opinions, or law comparisons,\n        5 - Summarized overview of extracted infromation, missing items, and potential risks.\n        Text from legal document: "

/-- Tail of the five-point template of get_chatgpt_response
(src/app.py lines 37-71); continuation lines carry the 12-space
indentation of that f-string. -/
def gptTail : String :=
  ",\n            I want you to analyze it and produce the following:\n            1 - Extracted contract information (eg. contracting parties, effective dates, governing laws, financial terms, etc),\n            2 - Give me details on the missing information from the document if there is any,\n            3 - Analysis of potential risks, such as non-standard clauses,\n            4 - Give me legal advice on what to change in the document, opinions, or law comparisons,\n            5 - Summarized overview of extracted information, missing items, and potential risks.\n            Text from legal document: "

/-- Prompt rendered by query_huggingface (src/app.py lines 344-361):
the Python branch `if country:` takes the jurisdiction template exactly
when `country` is a non-empty string. -/
def hfPrompt (text country : String) : String :=
  if country ≠ "" then promptIntro ++ promptLaws ++ country ++ hfTail ++ text
  else promptIntro ++ hfTail ++ text

/-- Prompt rendered by the second copy of query_huggingface
(src/app.py lines 432-449). -/
def hfPrompt2 (text country : String) : String :=
  if country ≠ "" then promptIntro ++ promptLaws ++ country ++ hfTail2 ++ text
  else promptIntro ++ hfTail2 ++ text

/-- Prompt rendered by get_chatgpt_response (src/app.py lines 40-57). -/
def gptPrompt (text country : String) : String :=
  if country ≠ "" then promptIntro ++ promptLaws ++ country ++ gptTail ++ text
  else promptIntro ++ gptTail ++ text

/-- The part of the query_huggingface prompt that precedes the interpolated
chunk text: the rendered template with the document text removed. -/
def hfHeader (country : String) : String :=
  if country ≠ "" then promptIntro ++ promptLaws ++ country ++ hfTail
  else promptIntro ++ hfTail

/-- The part of the get_chatgpt_response prompt that precedes the
interpolated chunk text. -/
def gptHeader (country : String) : String :=
  if country ≠ "" then promptIntro ++ promptLaws ++ country ++ gptTail
  else promptIntro ++ gptTail

/-- The five numbered-point markers of the legal-analysis template. -/
def pointMarkers : List String := ["1 - ", "2 - ", "3 - ", "4 - ", "5 - "]

/-- HTTP request as constructed by query_huggingface: method, URL, the
Authorization header value, and the JSON payload fields
inputs / parameters.max_new_tokens, plus the requests.post timeout. -/
structure HFRequest where
  method : String
  url : String
  authorization : String
  inputs : String
  max_new_tokens : Nat
  timeoutSecs : Nat
deriving DecidableEq

/-- HTTP response as seen by the source: a status code and a body. -/
structure HFResponse where
  status : Nat
  body : String
deriving DecidableEq

/-- Embedding of query_huggingface (src/app.py lines 339-365).  `net`
stands for requests.post.  The function builds the Bearer header, the
model URL and the payload, performs the single post the source performs,
and returns the raw response; the second component is the list of HTTP
requests issued during the call. -/
def query_huggingface (net : HFRequest → HFResponse)
    (model_id token text country : String) : HFResponse × List HFRequest :=
  let headers := "Bearer " ++ token
  let API_URL := "https://api-inference.huggingface.co/models/" ++ model_id
  let prompt := hfPrompt text country
  let payload : HFRequest := ⟨"POST", API_URL, headers, prompt, 1024, 120⟩
  (net payload, [payload])

/-- Embedding of the second copy of query_huggingface
(src/app.py lines 427-453); identical control flow, template `hfPrompt2`. -/
def query_huggingface2 (net : HFRequest → HFResponse)
    (model_id token text country : String) : HFResponse × List HFRequest :=
  let headers := "Bearer " ++ token
  let API_URL := "https://api-inference.huggingface.co/models/" ++ model_id
  let prompt := hfPrompt2 text country
  let payload : HFRequest := ⟨"POST", API_URL, headers, prompt, 1024, 120⟩
  (net payload, [payload])

/-- Whitespace test used by the embedding of Python str.strip. -/
def isSpaceChar (c : Char) : Bool :=
  c = ' ' ∨ c = '\n' ∨ c = '\t' ∨ c = '\r'

/-- Embedding of Python str.strip(): removes leading and trailing
whitespace. -/
def stripStr (s : String) : String :=
  ⟨((s.data.dropWhile isSpaceChar).reverse.dropWhile isSpaceChar).reverse⟩

/-- Embedding of get_chatgpt_response (src/app.py lines 37-71).
`complete` stands for client.chat.completions.create applied to the
single user message plus the extraction response.choices[0].message.content;
an Except.error covers any exception raised inside the try block.  The
source strips the content on success and returns the fixed sentinel string
on any failure. -/
def get_chatgpt_response (complete : String → String → Except String String)
    (text country model : String) : String :=
  let prompt := gptPrompt text country
  match complete model prompt with
  | Except.ok content => stripStr content
  | Except.error _ => "Error: Could not get response from ChatGPT"

/-- Embedding of translate_text (src/app.py lines 73-83).
`translatorCall` stands for translator_client.translate plus the
extraction response[0].translations[0].text; on any exception the source
displays the error in the UI and returns the original text. -/
def translate_text (translatorCall : String → String → Except String String)
    (text to_language : String) : String :=
  match translatorCall text to_language with
  | Except.ok t => t
  | Except.error _ => text

/-- Embedding of the later copy of translate_text
(src/app.py lines 460-466): there is no try/except, so a collaborator
failure propagates to the caller. -/
def translate_text_v2 (translatorCall : String → String → Except String String)
    (text to_language : String) : Except String String :=
  translatorCall text to_language

/-- An uploaded file: a name and raw bytes (each 0-255). -/
structure UploadedFile where
  name : String
  content : List Nat

/-- Validity window of the second byte of a three-byte UTF-8 sequence,
following the lead byte `b` (E0 and ED carry restricted windows). -/
def utf8Cont3 (b b2 : Nat) : Bool :=
  if b = 0xE0 then decide (0xA0 ≤ b2 ∧ b2 ≤ 0xBF)
  else if b = 0xED then decide (0x80 ≤ b2 ∧ b2 ≤ 0x9F)
  else decide (0x80 ≤ b2 ∧ b2 ≤ 0xBF)

/-- Validity window of the second byte of a four-byte UTF-8 sequence,
following the lead byte `b` (F0 and F4 carry restricted windows). -/
def utf8Cont4 (b b2 : Nat) : Bool :=
  if b = 0xF0 then decide (0x90 ≤ b2 ∧ b2 ≤ 0xBF)
  else if b = 0xF4 then decide (0x80 ≤ b2 ∧ b2 ≤ 0x8F)
  else decide (0x80 ≤ b2 ∧ b2 ≤ 0xBF)

/-- Embedding of Python bytes.decode("utf-8", errors="ignore") as used by
extract_text_from_file: decodes UTF-8 byte sequences to code points and
silently skips each maximal invalid subpart; it never fails. -/
def utf8DecodeIgnore : List Nat → List Nat
  | [] => []
  | b :: bs =>
    if b ≤ 0x7F then b :: utf8DecodeIgnore bs
    else if 0xC2 ≤ b ∧ b ≤ 0xDF then
      match bs with
      | [] => []
      | b2 :: bs2 =>
        if 0x80 ≤ b2 ∧ b2 ≤ 0xBF then
          ((b - 0xC0) * 64 + (b2 - 0x80)) :: utf8DecodeIgnore bs2
        else utf8DecodeIgnore (b2 :: bs2)
    else if 0xE0 ≤ b ∧ b ≤ 0xEF then
      match bs with
      | [] => []
      | b2 :: bs2 =>
        if utf8Cont3 b b2 then
          match bs2 with
          | [] => []
          | b3 :: bs3 =>
            if 0x80 ≤ b3 ∧ b3 ≤ 0xBF then
              ((b - 0xE0) * 4096 + (b2 - 0x80) * 64 + (b3 - 0x80)) ::
                utf8DecodeIgnore bs3
            else utf8DecodeIgnore (b3 :: bs3)
        else utf8DecodeIgnore (b2 :: bs2)
    else if 0xF0 ≤ b ∧ b ≤ 0xF4 then
      match bs with
      | [] => []
      | b2 :: bs2 =>
        if utf8Cont4 b b2 then
          match bs2 with
          | [] => []
          | b3 :: bs3 =>
            if 0x80 ≤ b3 ∧ b3 ≤ 0xBF then
              match bs3 with
              | [] => []
              | b4 :: bs4 =>
                if 0x80 ≤ b4 ∧ b4 ≤ 0xBF then
                  ((b - 0xF0) * 262144 + (b2 - 0x80) * 4096 +
                      (b3 - 0x80) * 64 + (b4 - 0x80)) :: utf8DecodeIgnore bs4
                else utf8DecodeIgnore (b4 :: bs4)
            else utf8DecodeIgnore (b3 :: bs3)
        else utf8DecodeIgnore (b2 :: bs2)
    else utf8DecodeIgnore bs

/-- Embedding of extract_text_from_file (src/app.py lines 85-94).
`pdfPages` stands for PdfReader plus per-page extract_text (None for a
page without text, matching the source's `or ""`); `docxParas` stands for
Document plus the paragraph texts; both joined with "\n" (code point 10).
Any other file name falls through to the permissive plain-text decode. -/
def extract_text_from_file (pdfPages : List Nat → List (Option (List Nat)))
    (docxParas : List Nat → List (List Nat)) (file : UploadedFile) : List Nat :=
  if strEndsWith file.name ".pdf" then
    List.intercalate [10] ((pdfPages file.content).map (fun o => o.getD []))
  else if strEndsWith file.name ".docx" then
    List.intercalate [10] (docxParas file.content)
  else
    utf8DecodeIgnore file.content

/-- A chat-transcript entry of st.session_state.messages. -/
structure Message where
  role : String
  content : String
deriving DecidableEq

/-- Embedding of one execution of the body of main (src/app.py
lines 371-425) as a transition on the chat transcript
st.session_state.messages.  `doc` is the uploaded document's extracted
(and possibly translated) text when a file is uploaded, `fup` the
chat-input submission when one was entered.  Rendering calls never touch
the transcript and are omitted. -/
def mainStep (complete : String → String → Except String String)
    (country model : String) (msgs : List Message)
    (doc : Option String) (fup : Option String) : List Message :=
  match doc with
  | none => msgs
  | some text =>
    let msgs1 :=
      if msgs.length == 0 then
        msgs ++ [⟨"assistant", get_chatgpt_response complete text country model⟩]
      else msgs
    match fup with
    | none => msgs1
    | some p =>
      msgs1 ++ [⟨"user", p⟩,
        ⟨"assistant",
          get_chatgpt_response complete
            ("Original contract text: " ++ text ++ "\n\nQuestion: " ++ p)
            country model⟩]

/-- Number of initial document-analysis requests a single main run issues:
the call guarded by `len(st.session_state.messages) == 0` fires exactly
when a document is uploaded and the transcript is empty. -/
def stepCount (msgs : List Message) (doc : Option String) : Nat :=
  match doc with
  | none => 0
  | some _ => if msgs.length == 0 then 1 else 0

/-- Iterated reruns of main over one browser session, accumulating the
transcript and the number of initial document-analysis requests issued. -/
def sessionRun (complete : String → String → Except String String)
    (country model : String) :
    List Message × Nat → List (Option String × Option String) →
    List Message × Nat
  | st, [] => st
  | (msgs, n), (doc, fup) :: rest =>
    sessionRun complete country model
      (mainStep complete country model msgs doc fup, n + stepCount msgs doc) rest

/-- Modelled from the spec: the error taxonomy of §7, absent from src/. -/
inductive FailureKind where
  | MissingCredential
  | AuthenticationFailed
  | ModelNotFound
  | UpstreamError (status : Nat) (body : String)
  | UnrecognizedSchema
  | NetworkError
  | RetriesExhausted
deriving DecidableEq

/-- Modelled from the spec: an InferenceResult (§3) is success XOR a typed
failure. -/
inductive InferenceResult where
  | success (text : String)
  | failure (kind : FailureKind)
deriving DecidableEq

/-- Modelled from the spec: the hard failure kinds of §7 (retrying cannot
help). -/
def isHardFailure : FailureKind → Bool
  | FailureKind.MissingCredential => true
  | FailureKind.AuthenticationFailed => true
  | FailureKind.ModelNotFound => true
  | _ => false

/-- Modelled from the spec: the labeled chunk-index separator of §4.4. -/
def chunkLabel (i : Nat) : String := "[Chunk " ++ toString (i + 1) ++ "] "

/-- Modelled from the spec: worker of the §4.4 Aggregator, absent from
src/.  It invokes the Inference Client once per chunk in input order,
concatenates successful outputs behind their chunk-index marker, aborts
immediately on a hard failure, and skips soft failures with a warning. -/
def aggregateGo (infer : String → InferenceResult) :
    List String → Nat → String → Except FailureKind String
  | [], _, acc => Except.ok acc
  | chunk :: rest, i, acc =>
    match infer chunk with
    | InferenceResult.success t =>
      aggregateGo infer rest (i + 1) (acc ++ chunkLabel i ++ t)
    | InferenceResult.failure k =>
      if isHardFailure k then Except.error k
      else aggregateGo infer rest (i + 1) acc

/-- Modelled from the spec: the §4.4 Aggregator over an ordered chunk
sequence, absent from src/. -/
def aggregate (infer : String → InferenceResult) (chunks : List String) :
    Except FailureKind String :=
  aggregateGo infer chunks 0 ""

/-- Modelled from the spec: the §4.1 Chunker's backward separator search.
Returns the cut position just after the last occurrence of `sep` that lies
fully inside the window `w` and starts within its final 200 characters. -/
def lastCutFor (sep w : List Char) : Option Nat :=
  (List.range (w.length + 1)).foldl
    (fun acc i =>
      if isPrefList sep (w.drop i) = true ∧ i + sep.length ≤ w.length ∧
          w.length ≤ i + 200 then
        some (i + sep.length)
      else acc)
    none

/-- Modelled from the spec: the §4.1 preferred separators, in priority
order: double newline, single newline, ". ", "; ", "? ", "! ". -/
def sepPriority : List (List Char) :=
  [['\n', '\n'], ['\n'], ['.', ' '], [';', ' '], ['?', ' '], ['!', ' ']]

/-- Modelled from the spec: try each preferred separator in priority
order, taking the first that occurs in the window. -/
def chooseFrom : List (List Char) → List Char → Option Nat
  | [], _ => none
  | sep :: rest, w =>
    match lastCutFor sep w with
    | some c => some c
    | none => chooseFrom rest w

/-- Modelled from the spec: the §4.1 break choice for a candidate window. -/
def chooseBreak (w : List Char) : Option Nat := chooseFrom sepPriority w

/-- Modelled from the spec: the cut applied to a candidate window — the
chosen separator break, or the hard character boundary `maxSize` when no
preferred separator is found. -/
def cutOf (maxSize : Nat) (w : List Char) : Nat :=
  match chooseBreak w with
  | some c => c
  | none => maxSize

/-- Modelled from the spec: worker of the §4.1 Text Chunker, structurally
recursive on a fuel argument so that it is executable; `chunkText` below
supplies fuel that the positive cut provably never exhausts.  A window
that fits inside the maximum size is emitted whole (empty input therefore
yields one empty chunk); otherwise the text is cut after a preferred
separator found by the backward search, or at the hard character
boundary, and the worker recurses on the remainder. -/
def chunkTextGo : Nat → Nat → List Char → List (List Char)
  | 0, _, s => [s]
  | fuel + 1, maxSize, s =>
    if s.length ≤ maxSize ∨ maxSize = 0 then [s]
    else
      (s.take maxSize).take (cutOf maxSize (s.take maxSize)) ::
        chunkTextGo fuel maxSize (s.drop (cutOf maxSize (s.take maxSize)))

/-- Modelled from the spec: the §4.1 Text Chunker, absent from src/. -/
def chunkText (maxSize : Nat) (s : List Char) : List (List Char) :=
  chunkTextGo (s.length + 1) maxSize s

/-- Concatenation of a chunk sequence. -/
def concatChunks (l : List (List Char)) : List Char :=
  l.foldr (fun a b => a ++ b) []

/-- Occurrences found by `lastCutFor` lie inside the window and after a
non-empty separator, so the cut is positive and bounded by the window. -/
theorem lastCutFor_bounds (sep w : List Char) (hs : sep ≠ []) {c : Nat}
    (h : lastCutFor sep w = some c) : 0 < c ∧ c ≤ w.length := by
  have hsl : 0 < sep.length := List.length_pos.mpr hs
  unfold lastCutFor at h
  have key : ∀ (l : List Nat) (acc : Option Nat),
      (∀ c', acc = some c' → 0 < c' ∧ c' ≤ w.length) →
      ∀ c', (l.foldl
        (fun acc i =>
          if isPrefList sep (w.drop i) = true ∧ i + sep.length ≤ w.length ∧
              w.length ≤ i + 200 then
            some (i + sep.length)
          else acc) acc) = some c' → 0 < c' ∧ c' ≤ w.length := by
    intro l
    induction l with
    | nil => intro acc hacc c' hc'; exact hacc c' hc'
    | cons a as ih =>
      intro acc hacc c' hc'
      refine ih _ ?_ c' hc'
      intro c'' hc''
      dsimp only at hc''
      split at hc''
      · rename_i hcond
        injection hc'' with h''
        subst h''
        exact ⟨by omega, hcond.2.1⟩
      · exact hacc c'' hc''
  exact key _ none (by intro c' hc'; cases hc') c h

/-- Any break produced by `chooseFrom` over non-empty separators is
positive and bounded by the window length. -/
theorem chooseFrom_bounds : ∀ (seps : List (List Char)) (w : List Char)
    (c : Nat), (∀ sep ∈ seps, sep ≠ []) → chooseFrom seps w = some c →
    0 < c ∧ c ≤ w.length := by
  intro seps
  induction seps with
  | nil => intro w c _ h; simp [chooseFrom] at h
  | cons sep rest ih =>
    intro w c hne h
    rw [chooseFrom] at h
    cases hl : lastCutFor sep w with
    | some c' =>
      rw [hl] at h
      injection h with h'
      subst h'
      exact lastCutFor_bounds sep w (hne sep (by simp)) hl
    | none =>
      rw [hl] at h
      exact ih w c (fun s hs => hne s (by simp [hs])) h

/-- Any break produced by `chooseBreak` is positive and bounded by the
window length. -/
theorem chooseBreak_bounds (w : List Char) {c : Nat}
    (h : chooseBreak w = some c) : 0 < c ∧ c ≤ w.length :=
  chooseFrom_bounds sepPriority w c (by decide) h

/-- The cut of a window is positive whenever the maximum size is. -/
theorem cutOf_pos (maxSize : Nat) (w : List Char) (h : 0 < maxSize) :
    0 < cutOf maxSize w := by
  unfold cutOf
  cases hc : chooseBreak w with
  | none => exact h
  | some c => exact (chooseBreak_bounds w hc).1

/-- The cut of a window never exceeds the maximum size when the window
itself does not. -/
theorem cutOf_le (maxSize : Nat) (w : List Char) (hw : w.length ≤ maxSize) :
    cutOf maxSize w ≤ maxSize := by
  unfold cutOf
  cases hc : chooseBreak w with
  | none => exact le_refl _
  | some c => exact le_trans (chooseBreak_bounds w hc).2 hw

/-- Concatenating no chunks gives the empty text. -/
@[simp] theorem concatChunks_nil : concatChunks [] = [] := rfl

/-- Concatenating a chunk sequence starts with its head chunk. -/
@[simp] theorem concatChunks_cons (a : List Char) (l : List (List Char)) :
    concatChunks (a :: l) = a ++ concatChunks l := rfl

/-- A list is a prefix of itself followed by anything. -/
theorem isPrefList_self_append (p r : List Char) :
    isPrefList p (p ++ r) = true := by
  induction p with
  | nil => rfl
  | cons a as ih => simp [isPrefList, ih]

/-- A prefix occurrence is an occurrence. -/
theorem hasSub_of_pre (p s : List Char) (h : isPrefList p s = true) :
    hasSub p s = true := by
  cases s with
  | nil => simpa [hasSub] using h
  | cons b bs => simp [hasSub, h]

/-- Occurrences survive prepending material on the left. -/
theorem hasSub_append_left (p l s : List Char) (h : hasSub p s = true) :
    hasSub p (l ++ s) = true := by
  induction l with
  | nil => simpa using h
  | cons a as ih => simp [hasSub, ih]

/-- A list occurs in itself followed by anything. -/
theorem hasSub_here (p r : List Char) : hasSub p (p ++ r) = true :=
  hasSub_of_pre _ _ (isPrefList_self_append p r)

/-- Character data of a string concatenation. -/
theorem strDataAppend (s t : String) : (s ++ t).data = s.data ++ t.data := by
  cases s; cases t; rfl

/-- The worker of the chunker concatenates back to its input, for every
fuel value. -/
theorem chunkTextGo_concat :
    ∀ (fuel maxSize : Nat) (s : List Char),
      concatChunks (chunkTextGo fuel maxSize s) = s := by
  intro fuel
  induction fuel with
  | zero => intro maxSize s; simp [chunkTextGo]
  | succ fuel ih =>
    intro maxSize s
    rw [chunkTextGo]
    split
    · simp
    · rename_i hcond
      rw [concatChunks_cons, ih]
      have hw : (s.take maxSize).length ≤ maxSize := by
        simp [List.length_take]
      have hcut : cutOf maxSize (s.take maxSize) ≤ maxSize :=
        cutOf_le _ _ hw
      rw [List.take_take, Nat.min_eq_left hcut, List.take_append_drop]

/-- With enough fuel and a positive maximum size, every chunk the worker
produces respects the maximum size. -/
theorem chunkTextGo_le :
    ∀ (fuel maxSize : Nat) (s : List Char), s.length < fuel → 0 < maxSize →
      ∀ c ∈ chunkTextGo fuel maxSize s, c.length ≤ maxSize := by
  intro fuel
  induction fuel with
  | zero => intro maxSize s hf; omega
  | succ fuel ih =>
    intro maxSize s hf hpos c hc
    rw [chunkTextGo] at hc
    revert hc
    split
    · rename_i hcond
      intro hc
      rw [List.mem_singleton] at hc
      subst hc
      omega
    · rename_i hcond
      intro hc
      rcases List.mem_cons.mp hc with rfl | hmem
      · simp only [List.length_take]
        omega
      · have hcut : 0 < cutOf maxSize (s.take maxSize) := cutOf_pos _ _ hpos
        refine ih maxSize _ ?_ hpos c hmem
        simp only [List.length_drop]
        omega

/-- The aggregator aborts with the failure of the first hard-failing
chunk, whatever the index offset and accumulator. -/
theorem aggregateGo_hard (infer : String → InferenceResult) (c : String)
    (k : FailureKind) (hc : infer c = InferenceResult.failure k)
    (hk : isHardFailure k = true) :
    ∀ (pre : List String),
      (∀ c' ∈ pre, ∀ k', infer c' = InferenceResult.failure k' →
        isHardFailure k' = false) →
      ∀ (post : List String) (i : Nat) (acc : String),
        aggregateGo infer (pre ++ c :: post) i acc = Except.error k := by
  intro pre
  induction pre with
  | nil =>
    intro _ post i acc
    simp [aggregateGo, hc, hk]
  | cons p ps ih =>
    intro hpre post i acc
    simp only [List.cons_append, aggregateGo]
    cases hp : infer p with
    | success t =>
      exact ih (fun c' h' => hpre c' (by simp [h'])) post (i + 1) _
    | failure k' =>
      have hsoft : isHardFailure k' = false := hpre p (by simp) k' hp
      simp only [hsoft, Bool.false_eq_true, if_false]
      exact ih (fun c' h' => hpre c' (by simp [h'])) post (i + 1) acc

/-- A run of main never removes or modifies transcript entries: the new
transcript extends the old one. -/
theorem mainStep_extends (complete : String → String → Except String String)
    (country model : String) (msgs : List Message)
    (doc fup : Option String) :
    ∃ t, mainStep complete country model msgs doc fup = msgs ++ t := by
  cases doc with
  | none => exact ⟨[], by simp [mainStep]⟩
  | some text =>
    simp only [mainStep]
    cases h : (msgs.length == 0) <;> cases fup <;> simp [h]

/-- A run of main with an uploaded document leaves a non-empty
transcript. -/
theorem mainStep_some_ne_nil
    (complete : String → String → Except String String)
    (country model : String) (msgs : List Message) (text : String)
    (fup : Option String) :
    mainStep complete country model msgs (some text) fup ≠ [] := by
  simp only [mainStep]
  cases h : (msgs.length == 0) <;> cases fup <;> simp [h]
  intro hmsgs
  simp [hmsgs] at h

/-- A session starting from a transcript that already witnessed its
initial analysis never issues a second one. -/
theorem sessionRun_count (complete : String → String → Except String String)
    (country model : String) :
    ∀ (inputs : List (Option String × Option String))
      (msgs : List Message) (n : Nat), n ≤ 1 → (msgs = [] → n = 0) →
      (sessionRun complete country model (msgs, n) inputs).2 ≤ 1 := by
  intro inputs
  induction inputs with
  | nil => intro msgs n h1 _; exact h1
  | cons io rest ih =>
    obtain ⟨doc, fup⟩ := io
    intro msgs n h1 h2
    simp only [sessionRun]
    apply ih
    · cases doc with
      | none => simpa [stepCount] using h1
      | some text =>
        by_cases hm : msgs = []
        · have hn : n = 0 := h2 hm
          simp [stepCount, hm, hn]
        · have hlen : (msgs.length == 0) = false := by
            simp [List.length_eq_zero, hm]
          simp only [stepCount, hlen, Bool.false_eq_true, if_false]
          omega
    · intro hnew
      cases doc with
      | none =>
        have hid : mainStep complete country model msgs none fup = msgs := rfl
        rw [hid] at hnew
        have hn : n = 0 := h2 hnew
        simp [stepCount, hn]
      | some text =>
        exact absurd hnew
          (mainStep_some_ne_nil complete country model msgs text fup)

/-- A marker occurring in the query_huggingface template tail occurs in
the full rendered header, for every country. -/
theorem hasSub_hfHeader (m country : String)
    (h1 : hasSub m.data hfTail.data = true) :
    hasSub m.data (hfHeader country).data = true := by
  unfold hfHeader
  split
  · rw [strDataAppend]
    exact hasSub_append_left _ _ _ h1
  · rw [strDataAppend]
    exact hasSub_append_left _ _ _ h1

/-- A marker occurring in the get_chatgpt_response template tail occurs
in the full rendered header, for every country. -/
theorem hasSub_gptHeader (m country : String)
    (h1 : hasSub m.data gptTail.data = true) :
    hasSub m.data (gptHeader country).data = true := by
  unfold gptHeader
  split
  · rw [strDataAppend]
    exact hasSub_append_left _ _ _ h1
  · rw [strDataAppend]
    exact hasSub_append_left _ _ _ h1

/-- ASCII bytes decode to themselves under the permissive decoder. -/
theorem utf8DecodeIgnore_ascii :
    ∀ bs : List Nat, (∀ b ∈ bs, b ≤ 0x7F) → utf8DecodeIgnore bs = bs := by
  intro bs
  induction bs with
  | nil => intro _; rfl
  | cons b bs ih =>
    intro h
    have hb : b ≤ 0x7F := h b (by simp)
    rw [utf8DecodeIgnore.eq_def]
    dsimp only
    rw [if_pos hb, ih (fun x hx => h x (by simp [hx]))]

/-- C1, counterexample.  The claim says that with no credential
configured the inference client returns MissingCredential and performs
zero network calls.  On the code, query_huggingface with the empty token
still performs its single post — one network call, Authorization header
"Bearer " — and hands back the endpoint's raw response; no MissingCredential
value exists in its codomain. -/
theorem c1_counterexample :
    (query_huggingface (fun _ => ⟨200, "ok"⟩) "gpt2" "" "doc" "").2.length = 1 ∧
    ¬ (query_huggingface (fun _ => ⟨200, "ok"⟩) "gpt2" "" "doc" "").2.length = 0 ∧
    (query_huggingface (fun _ => ⟨200, "ok"⟩) "gpt2" "" "doc" "").1 = ⟨200, "ok"⟩ ∧
    ((query_huggingface (fun _ => ⟨200, "ok"⟩) "gpt2" "" "doc" "").2.map
      (fun q => q.authorization)) = ["Bearer "] :=
  ⟨rfl, by decide, rfl, rfl⟩

/-- C1, amended.  When no credential is configured (empty token),
query_huggingface performs exactly one network call whose Authorization
header is "Bearer " followed by the empty credential, and returns the
endpoint's raw response unchanged; it never produces a MissingCredential
failure, since no such kind exists in the code. -/
theorem c1_amended (net : HFRequest → HFResponse)
    (model_id text country : String) :
    (query_huggingface net model_id "" text country).2.length = 1 ∧
    ((query_huggingface net model_id "" text country).2.map
      (fun q => q.authorization)) = ["Bearer "] ∧
    (query_huggingface net model_id "" text country).1 =
      net ⟨"POST", "https://api-inference.huggingface.co/models/" ++ model_id,
        "Bearer ", hfPrompt text country, 1024, 120⟩ :=
  ⟨rfl, rfl, rfl⟩

/-- C2, counterexample.  The claim says that against an endpoint that
always answers HTTP 429 the client retries up to its attempt ceiling with
increasing backoff and returns RetriesExhausted.  On the code,
query_huggingface performs exactly one attempt — not the claimed ceiling
of about four — and returns the raw 429 response. -/
theorem c2_counterexample :
    (query_huggingface (fun _ => ⟨429, "rate limited"⟩)
      "gpt2" "hf_token" "doc" "").2.length = 1 ∧
    ¬ (query_huggingface (fun _ => ⟨429, "rate limited"⟩)
      "gpt2" "hf_token" "doc" "").2.length = 4 ∧
    (query_huggingface (fun _ => ⟨429, "rate limited"⟩)
      "gpt2" "hf_token" "doc" "").1 = ⟨429, "rate limited"⟩ :=
  ⟨rfl, by decide, rfl⟩

/-- C2, amended.  Against an endpoint that answers HTTP 429 on every
attempt, query_huggingface performs exactly one attempt, with no retry,
backoff or sleep, and returns the 429 response unchanged to its caller. -/
theorem c2_amended (net : HFRequest → HFResponse)
    (model_id token text country : String)
    (h : ∀ q, (net q).status = 429) :
    (query_huggingface net model_id token text country).1.status = 429 ∧
    (query_huggingface net model_id token text country).2.length = 1 :=
  ⟨h _, rfl⟩

/-- C2, witness for the amended theorem at a concrete always-429
endpoint. -/
theorem c2_amended_witness :
    (query_huggingface (fun _ => ⟨429, "busy"⟩)
      "bigscience/bloom" "hf_tok" "doc" "").1.status = 429 ∧
    (query_huggingface (fun _ => ⟨429, "busy"⟩)
      "bigscience/bloom" "hf_tok" "doc" "").2.length = 1 :=
  c2_amended (fun _ => ⟨429, "busy"⟩) "bigscience/bloom" "hf_tok" "doc" ""
    (fun _ => rfl)

/-- C3.  If a chunk of the ordered input yields a hard failure kind and
every chunk before it does not, the Aggregator aborts at that chunk and
propagates exactly that failure; the error result carries no output from
any chunk, in particular none from the later chunks. -/
theorem c3_aggregator_hard_failure_aborts (infer : String → InferenceResult)
    (pre post : List String) (c : String) (k : FailureKind)
    (hpre : ∀ c' ∈ pre, ∀ k', infer c' = InferenceResult.failure k' →
      isHardFailure k' = false)
    (hc : infer c = InferenceResult.failure k)
    (hk : isHardFailure k = true) :
    aggregate infer (pre ++ c :: post) = Except.error k :=
  aggregateGo_hard infer c k hc hk pre hpre post 0 ""

/-- C3, witness: three chunks whose second yields ModelNotFound make the
Aggregator return that hard failure, with no output from the third. -/
theorem c3_witness :
    aggregate
      (fun s => if s = "chunk2" then
          InferenceResult.failure FailureKind.ModelNotFound
        else InferenceResult.success ("analysis of " ++ s))
      (["chunk1"] ++ "chunk2" :: ["chunk3"]) =
      Except.error FailureKind.ModelNotFound := by
  refine c3_aggregator_hard_failure_aborts _ ["chunk1"] ["chunk3"] "chunk2"
    FailureKind.ModelNotFound ?_ (by decide) (by decide)
  intro c' hc' k' hk'
  have hc'' : c' = "chunk1" := by simpa using hc'
  subst hc''
  rw [if_neg (by decide)] at hk'
  simp at hk'

/-- C4, counterexample.  The claim says a caller-visible inference result
is exclusively a success or one of the enumerated typed failure kinds,
never an untyped value indistinguishable from a success.  On the code,
get_chatgpt_response reports failure as the in-band sentinel string
"Error: Could not get response from ChatGPT", the very value an ordinary
success can produce: a failing collaborator and a succeeding one yield
identical results. -/
theorem c4_counterexample :
    get_chatgpt_response (fun _ _ => Except.error "connection refused")
      "doc" "" "gpt-3.5-turbo" =
      "Error: Could not get response from ChatGPT" ∧
    get_chatgpt_response
      (fun _ _ => Except.ok "Error: Could not get response from ChatGPT")
      "doc" "" "gpt-3.5-turbo" =
      "Error: Could not get response from ChatGPT" ∧
    get_chatgpt_response (fun _ _ => Except.error "connection refused")
      "doc" "" "gpt-3.5-turbo" =
      get_chatgpt_response
        (fun _ _ => Except.ok "Error: Could not get response from ChatGPT")
        "doc" "" "gpt-3.5-turbo" :=
  ⟨rfl, by decide, by decide⟩

/-- C4, amended.  Callers receive plain untagged values: on any
collaborator failure get_chatgpt_response returns the fixed sentinel
string, of the same type as a success; and query_huggingface returns the
collaborator's raw HTTP response unchanged.  None of the enumerated typed
failure kinds exists in the code. -/
theorem c4_amended (text country model e : String)
    (net : HFRequest → HFResponse) (model_id token : String) :
    get_chatgpt_response (fun _ _ => Except.error e) text country model =
      "Error: Could not get response from ChatGPT" ∧
    (query_huggingface net model_id token text country).1 =
      net ⟨"POST", "https://api-inference.huggingface.co/models/" ++ model_id,
        "Bearer " ++ token, hfPrompt text country, 1024, 120⟩ :=
  ⟨rfl, rfl⟩

/-- C5 (spec-modelled Chunker).  Concatenating the chunks the Chunker
produces reproduces the input with no characters dropped or duplicated,
and, for a positive maximum size, every produced chunk is no longer than
the maximum size. -/
theorem c5_chunker_roundtrip_and_bound (maxSize : Nat) (s : List Char) :
    concatChunks (chunkText maxSize s) = s ∧
    (0 < maxSize → ∀ c ∈ chunkText maxSize s, c.length ≤ maxSize) := by
  constructor
  · exact chunkTextGo_concat _ _ _
  · intro h
    exact chunkTextGo_le _ _ _ (by omega) h

/-- C5, witness at a concrete text with preferred separators. -/
theorem c5_witness :
    concatChunks (chunkText 10 "First para.\n\nSecond one? Yes! Done.".data) =
      "First para.\n\nSecond one? Yes! Done.".data ∧
    (∀ c ∈ chunkText 10 "First para.\n\nSecond one? Yes! Done.".data,
      c.length ≤ 10) :=
  ⟨(c5_chunker_roundtrip_and_bound 10 _).1,
   (c5_chunker_roundtrip_and_bound 10 _).2 (by decide)⟩

/-- C6.  For every model identifier, token and prompt input, both copies
of query_huggingface issue exactly one HTTP POST to
https://api-inference.huggingface.co/models/<model-id> carrying the
Authorization value "Bearer <token>" and the JSON body fields
inputs = rendered prompt and parameters.max_new_tokens = 1024. -/
theorem c6_request_shape (net : HFRequest → HFResponse)
    (model_id token text country : String) :
    (query_huggingface net model_id token text country).2 =
      [⟨"POST", "https://api-inference.huggingface.co/models/" ++ model_id,
        "Bearer " ++ token, hfPrompt text country, 1024, 120⟩] ∧
    (query_huggingface2 net model_id token text country).2 =
      [⟨"POST", "https://api-inference.huggingface.co/models/" ++ model_id,
        "Bearer " ++ token, hfPrompt2 text country, 1024, 120⟩] :=
  ⟨rfl, rfl⟩

/-- C7.  The prompt builders of query_huggingface and of
get_chatgpt_response are pure functions of the chunk text and the
optional jurisdiction: the rendered prompt is the fixed template header
followed by the chunk text interpolated at the very end, and each of the
five numbered-point markers occurs in the header, before the chunk. -/
theorem c7_prompt_builder (text country : String) :
    hfPrompt text country = hfHeader country ++ text ∧
    gptPrompt text country = gptHeader country ++ text ∧
    (∀ m ∈ pointMarkers, hasSub m.data (hfHeader country).data = true ∧
      hasSub m.data (gptHeader country).data = true) := by
  refine ⟨?_, ?_, ?_⟩
  · unfold hfPrompt hfHeader
    split <;> rfl
  · unfold gptPrompt gptHeader
    split <;> rfl
  · intro m hm
    simp only [pointMarkers, List.mem_cons, List.not_mem_nil, or_false] at hm
    rcases hm with rfl | rfl | rfl | rfl | rfl <;>
      exact ⟨hasSub_hfHeader _ _ (by decide), hasSub_gptHeader _ _ (by decide)⟩

/-- C8, counterexample.  The claim says a failing translation collaborator
makes the translation step return the original text and never surface an
error.  The later copy of translate_text (src/app.py lines 460-466) has
no exception handler: a collaborator failure is propagated to the caller
instead of the original text. -/
theorem c8_counterexample :
    translate_text_v2 (fun _ _ => Except.error "translator unavailable")
      "hello" "ar" = Except.error "translator unavailable" ∧
    translate_text_v2 (fun _ _ => Except.error "translator unavailable")
      "hello" "ar" ≠ Except.ok "hello" :=
  ⟨rfl, fun h => nomatch h⟩

/-- C8, amended.  The first copy of translate_text (lines 73-83) swallows
any collaborator failure and returns the original text unchanged, while
the later copy (lines 460-466) has no handler and hands the collaborator
outcome — including failures — straight to its caller. -/
theorem c8_amended :
    (∀ (translatorCall : String → String → Except String String)
      (text lang : String),
      (∃ e, translatorCall text lang = Except.error e) →
      translate_text translatorCall text lang = text) ∧
    (∀ (translatorCall : String → String → Except String String)
      (text lang : String),
      translate_text_v2 translatorCall text lang = translatorCall text lang) := by
  constructor
  · rintro tr text lang ⟨e, he⟩
    unfold translate_text
    rw [he]
  · intro tr text lang
    rfl

/-- C8, witness for the amended theorem at a concrete failing
collaborator. -/
theorem c8_amended_witness :
    translate_text (fun _ _ => Except.error "no credential") "hello" "ar" =
      "hello" :=
  c8_amended.1 (fun _ _ => Except.error "no credential") "hello" "ar"
    ⟨"no credential", rfl⟩

/-- C9, counterexample.  The claim says invalid byte sequences are
replaced, not dropped.  The code decodes with errors ignored: on the
bytes [72, 105, 255, 33] of a .txt upload, the invalid byte 255 vanishes
from the output — no replacement character U+FFFD appears and the output
is shorter than the input. -/
theorem c9_counterexample :
    extract_text_from_file (fun _ => []) (fun _ => [])
      ⟨"contract.txt", [72, 105, 255, 33]⟩ = [72, 105, 33] ∧
    ¬ (0xFFFD ∈ extract_text_from_file (fun _ => []) (fun _ => [])
      ⟨"contract.txt", [72, 105, 255, 33]⟩) ∧
    (extract_text_from_file (fun _ => []) (fun _ => [])
      ⟨"contract.txt", [72, 105, 255, 33]⟩).length ≠
      ([72, 105, 255, 33] : List Nat).length :=
  ⟨by decide, by decide, by decide⟩

/-- C9, amended.  A file whose name ends in neither ".pdf" nor ".docx" is
decoded as plain text permissively and totally: ASCII bytes decode to
themselves, and a byte that can start no valid UTF-8 sequence is silently
dropped — not replaced. -/
theorem c9_amended (pdfPages : List Nat → List (Option (List Nat)))
    (docxParas : List Nat → List (List Nat)) (name : String)
    (bytes : List Nat) (hp : strEndsWith name ".pdf" = false)
    (hd : strEndsWith name ".docx" = false) :
    extract_text_from_file pdfPages docxParas ⟨name, bytes⟩ =
      utf8DecodeIgnore bytes ∧
    (∀ bs : List Nat, (∀ b ∈ bs, b ≤ 0x7F) → utf8DecodeIgnore bs = bs) ∧
    (∀ (b : Nat) (bs : List Nat), 0x80 ≤ b → b ≤ 0xC1 ∨ 0xF5 ≤ b →
      utf8DecodeIgnore (b :: bs) = utf8DecodeIgnore bs) := by
  refine ⟨?_, utf8DecodeIgnore_ascii, ?_⟩
  · simp [extract_text_from_file, hp, hd]
  · intro b bs h1 h2
    rw [utf8DecodeIgnore.eq_def]
    dsimp only
    rw [if_neg (by omega), if_neg (by omega), if_neg (by omega),
      if_neg (by omega)]

/-- C9, witness for the amended theorem at a concrete plain-text file. -/
theorem c9_amended_witness :
    extract_text_from_file (fun _ => []) (fun _ => [])
      ⟨"notes.md", [104, 105]⟩ = utf8DecodeIgnore [104, 105] ∧
    (∀ bs : List Nat, (∀ b ∈ bs, b ≤ 0x7F) → utf8DecodeIgnore bs = bs) ∧
    (∀ (b : Nat) (bs : List Nat), 0x80 ≤ b → b ≤ 0xC1 ∨ 0xF5 ≤ b →
      utf8DecodeIgnore (b :: bs) = utf8DecodeIgnore bs) :=
  c9_amended (fun _ => []) (fun _ => []) "notes.md" [104, 105]
    (by decide) (by decide)

/-- C10.  The transcript st.session_state.messages is append-only across
a run of main; with a document uploaded and a non-empty transcript, a run
without a follow-up leaves the transcript unchanged (the initial analysis
is issued only on an empty transcript, hence at most once per session, as
the session fold records); and a follow-up submission appends exactly one
user message followed by exactly one assistant message. -/
theorem c10_transcript_invariants
    (complete : String → String → Except String String)
    (country model : String) (msgs : List Message)
    (doc fup : Option String) (text p : String)
    (inputs : List (Option String × Option String)) :
    (∃ t, mainStep complete country model msgs doc fup = msgs ++ t) ∧
    (msgs ≠ [] → mainStep complete country model msgs (some text) none = msgs) ∧
    (mainStep complete country model msgs (some text) (some p) =
      mainStep complete country model msgs (some text) none ++
        [⟨"user", p⟩,
         ⟨"assistant",
           get_chatgpt_response complete
             ("Original contract text: " ++ text ++ "\n\nQuestion: " ++ p)
             country model⟩]) ∧
    (sessionRun complete country model ([], 0) inputs).2 ≤ 1 := by
  refine ⟨mainStep_extends _ _ _ _ _ _, ?_, ?_, ?_⟩
  · intro hm
    have hlen : (msgs.length == 0) = false := by
      simp [List.length_eq_zero, hm]
    simp [mainStep, hlen]
  · rfl
  · exact sessionRun_count _ _ _ inputs [] 0 (by omega) (fun _ => rfl)

/-- C10, witness at a concrete session. -/
theorem c10_witness :
    mainStep (fun _ _ => Except.ok "fine") "" "gpt-4"
      [⟨"assistant", "initial"⟩] (some "doc") none =
      [⟨"assistant", "initial"⟩] ∧
    (sessionRun (fun _ _ => Except.ok "fine") "" "gpt-4" ([], 0)
      [(some "doc", none), (some "doc", some "q")]).2 ≤ 1 :=
  ⟨(c10_transcript_invariants (fun _ _ => Except.ok "fine") "" "gpt-4"
      [⟨"assistant", "initial"⟩] (some "doc") none "doc" "q"
      [(some "doc", none), (some "doc", some "q")]).2.1 (by decide),
   (c10_transcript_invariants (fun _ _ => Except.ok "fine") "" "gpt-4"
      [⟨"assistant", "initial"⟩] (some "doc") none "doc" "q"
      [(some "doc", none), (some "doc", some "q")]).2.2.2⟩
